import Mathlib

/-!
Verification of the deepBlue client module (`deeptools/deepBlue.py`) against its
natural-language specification.  The Python source is shallowly embedded below:
pure functions become Lean functions, the remote server is an explicit oracle
record of its responses, Python `None` becomes `Option.none`, the floating-point
"no data" sentinel NaN is represented by `Option.none` at every value slot, and
Python exceptions are modelled by `Except` / an explicit error result.
-/

/-- A requested genomic region `(chrom, start, end)` as passed to `mergeRegions`. -/
abbrev Region := String × Int × Int

/-- A floating-point value slot: `none` models the NaN "no data" sentinel,
`some q` a finite numeric value (floats are modelled exactly by rationals). -/
abbrev Val := Option ℚ

/-- A parsed result interval `(start, end, value)` as produced by `deepBlue.intervals`. -/
abbrev Itv := Int × Int × Val

/-- The kinds of Python exceptions the embedded code can raise.  `remoteError`
carries the server-supplied payload string that the Python `RuntimeError`
message embeds; `nameError` models a `raise` statement whose message format
references an undefined variable (the format call itself raises `NameError`);
`neverReturns` marks a polling loop that never observes a terminal state and
hence never returns in Python. -/
inductive PyError where
  | attributeError
  | keyError
  | indexError
  | valueError
  | zeroDivisionError
  | nameError
  | noneID
  | neverReturns
  | remoteError (msg : String)
  | runtimeNotFound (msg : String)
deriving DecidableEq

/-! ### mergeRegions -/

/-- Lexicographic code-point comparison of character lists (strict less-than),
matching Python's string ordering. -/
def charListLt : List Char → List Char → Bool
  | [], [] => false
  | [], _ :: _ => true
  | _ :: _, [] => false
  | a :: as, b :: bs =>
      if a.toNat < b.toNat then true
      else if b.toNat < a.toNat then false
      else charListLt as bs

/-- Python string `<`: lexicographic by Unicode code points. -/
def strLtB (a b : String) : Bool := charListLt a.data b.data

/-- Python tuple comparison `(chrom, start, end) <= (chrom, start, end)`:
lexicographic, strings compared by code points. -/
def regLEb (a b : Region) : Bool :=
  if strLtB a.1 b.1 then true
  else if strLtB b.1 a.1 then false
  else if a.2.1 < b.2.1 then true
  else if b.2.1 < a.2.1 then false
  else decide (a.2.2 ≤ b.2.2)

/-- Stable insertion used to model Python's `sorted` (ascending, stable). -/
def insertReg (a : Region) : List Region → List Region
  | [] => [a]
  | b :: l => if regLEb a b then a :: b :: l else b :: insertReg a l

/-- Python `sorted(regions)`: the ascending stable sort of the region list. -/
def pySorted : List Region → List Region
  | [] => []
  | a :: l => insertReg a (pySorted l)

/-- The output of `mergeRegions`: a Python dict in insertion order.  Keys are
`Option String` because the final flush can file the initial `[None, None,
None]` state under key `None` (empty input); values are `[start, end]` pairs
whose components are `Option Int` for the same reason. -/
abbrev MergeOut := List (Option String × List (Option Int × Option Int))

/-- `out.setdefault(k, []).append(v)` on an insertion-ordered dict:
append `v` to the list at key `k`, creating the key at the back if absent. -/
def dictAppend : MergeOut → Option String → Option Int × Option Int → MergeOut
  | [], k, v => [(k, [v])]
  | (k', vs) :: rest, k, v =>
      if k' = k then (k', vs ++ [v]) :: rest else (k', vs) :: dictAppend rest k v

/-- One iteration of the sweep in `mergeRegions`.  The state is the dict built
so far together with `last` (`none` models the initial `[None, None, None]`).
The merge test is the source's `reg[0] == last[0] and reg[1] <= last[1]`
(the incoming start is compared against the stored START, `last[1]`), and the
merge assignment is the source's unconditional `last[2] = reg[2]`.  The flush
is guarded by the truthiness test `if last[0]:` (skipped for an empty name). -/
def mergeStep (st : MergeOut × Option (String × Int × Int)) (reg : Region) :
    MergeOut × Option (String × Int × Int) :=
  match st.2 with
  | none => (st.1, some reg)
  | some (lChrom, lStart, lEnd) =>
      if reg.1 = lChrom ∧ reg.2.1 ≤ lStart then
        (st.1, some (lChrom, lStart, reg.2.2))
      else
        let out := if lChrom = "" then st.1
                   else dictAppend st.1 (some lChrom) (some lStart, some lEnd)
        (out, some reg)

/-- `mergeRegions(regions)` from `deepBlue.py`: sort the regions, sweep with
`mergeStep`, then flush the final `last` unconditionally (no truthiness test:
for empty input this files `[None, None]` under the key `None`). -/
def mergeRegions (regions : List Region) : MergeOut :=
  let bar := pySorted regions
  let fin := bar.foldl mergeStep ([], none)
  match fin.2 with
  | none => dictAppend fin.1 none (none, none)
  | some (c, s, e) => dictAppend fin.1 (some c) (some s, some e)

/-- Adjacent entries of a per-chromosome output list are disjoint and in order:
each entry's end is at most the next entry's start.  `none` coordinates fail. -/
def chainOkB : List (Option Int × Option Int) → Bool
  | [] => true
  | [_] => true
  | a :: b :: rest =>
      (match a.2, b.1 with
       | some e1, some s2 => decide (e1 ≤ s2)
       | _, _ => false) && chainOkB (b :: rest)

/-- Claim C1: the spec says `mergeRegions` extends the current interval
whenever the next region starts at or before the current interval's END, so
that merging `[("chr1",0,100), ("chr1",50,150)]` yields the single region
`("chr1",0,150)`.  The source instead compares the next start against the
current interval's START (`reg[1] <= last[1]`), so the two overlapping regions
are not merged: the result keeps both `[0,100]` and `[50,150]`. -/
theorem mergeRegions_no_merge :
    mergeRegions [("chr1", 0, 100), ("chr1", 50, 150)] ≠
      [(some "chr1", [(some 0, some 150)])] ∧
    mergeRegions [("chr1", 0, 100), ("chr1", 50, 150)] =
      [(some "chr1", [(some 0, some 100), (some 50, some 150)])] := by
  have h : mergeRegions [("chr1", 0, 100), ("chr1", 50, 150)] =
      [(some "chr1", [(some 0, some 100), (some 50, some 150)])] := rfl
  exact ⟨by rw [h]; decide, h⟩

/-- Claim C2: the spec says the output of `mergeRegions` is per chromosome
pairwise non-overlapping.  On the input `[("chr1",0,100), ("chr1",50,150)]`
the source returns the two entries `[0,100]` and `[50,150]`, which overlap
(`50 < 100`), violating the claimed invariant. -/
theorem mergeRegions_not_disjoint :
    mergeRegions [("chr1", 0, 100), ("chr1", 50, 150)] =
      [(some "chr1", [(some 0, some 100), (some 50, some 150)])] ∧
    chainOkB [(some 0, some 100), (some 50, some 150)] = false := by
  exact ⟨rfl, by decide⟩

/-- Claim C5 counterexample: applied to the empty region list, `mergeRegions`
does not raise any error; the final flush files the untouched initial state
under the key `None`, returning the mapping `{None: [[None, None]]}`. -/
theorem mergeRegions_empty_eval :
    mergeRegions [] = [(none, [(none, none)])] := rfl

/-- Claim C5 (amended): `mergeRegions` on an empty input sequence returns the
degenerate mapping `{None: [[None, None]]}` instead of failing. -/
theorem mergeRegions_empty_returns (regions : List Region) (h : regions = []) :
    mergeRegions regions = [(none, [(none, none)])] := by
  subst h; rfl

/-- Witness for `mergeRegions_empty_returns` at the concrete empty input. -/
theorem mergeRegions_empty_witness :
    mergeRegions [] = [(none, [(none, none)])] :=
  mergeRegions_empty_returns [] rfl

/-! ### makeTiles -/

/-- The `while start <= v` loop of `makeTiles` for one chromosome of length
`v`.  Each iteration emits the window `[start, min(start+binSize, v)]` and then
executes the source's advance `start += end + distanceBetweenBins` (the ABSOLUTE
clipped end coordinate is added to `start`).  The loop has no intrinsic
termination guarantee (for example `binSize = 0` loops forever), so it is
embedded with explicit fuel; `none` models a Python loop that has not
terminated within the given fuel. -/
def tileChrom (binSize gap v : Int) : Nat → Int → Option (List (Int × Int))
  | 0, _ => none
  | Nat.succ fuel, start =>
      if start ≤ v then
        let e := start + binSize
        let e2 := if e > v then v else e
        match tileChrom binSize gap v fuel (start + e2 + gap) with
        | none => none
        | some rest => some ((start, e2) :: rest)
      else some []

/-- `makeTiles(db, args)` from `deepBlue.py`: for each `(k, v)` of
`db.chromsTuple` in order, run the tiling loop from `start = 0` and emit
`[k, start, end]` windows.  `binSize` is `args.binSize` and `gap` is
`args.distanceBetweenBins`. -/
def makeTiles : List (String × Int) → Int → Int → Nat → Option (List (String × Int × Int))
  | [], _, _, _ => some []
  | (k, v) :: rest, binSize, gap, fuel =>
      match tileChrom binSize gap v fuel 0 with
      | none => none
      | some tiles =>
          match makeTiles rest binSize gap fuel with
          | none => none
          | some more => some (tiles.map (fun t => (k, t.1, t.2)) ++ more)

/-- Claim C3: the spec says each window's start advances by exactly
`binSize + gap`, so `binSize = 1000, gap = 0` over a chromosome of length 2500
yields the three tiles `[0,1000), [1000,2000), [2000,2500)`.  The source
instead executes `start += end + distanceBetweenBins`, adding the absolute end
coordinate: after emitting `[1000,2000)` the new start is `1000 + 2000 = 3000 >
2500`, so the final truncated tile `[2000,2500)` is never produced. -/
theorem makeTiles_skips_tail :
    makeTiles [("chr1", 2500)] 1000 0 100 =
      some [("chr1", 0, 1000), ("chr1", 1000, 2000)] ∧
    makeTiles [("chr1", 2500)] 1000 0 100 ≠
      some [("chr1", 0, 1000), ("chr1", 1000, 2000), ("chr1", 2000, 2500)] := by
  exact ⟨by decide, by decide⟩

/-! ### Session opening: getEID and the experiment-ID check in `__init__` -/

/-- `deepBlue.getEID` after a successful `search` call: scan the result rows
`(id, name)` in order and return the id of the FIRST row whose name equals the
requested sample; `none` when no row matches. -/
def getEID (sample : String) : List (String × String) → Option String
  | [] => none
  | r :: rest => if r.2 = sample then some r.1 else getEID sample rest

/-- The experiment-resolution step of `deepBlue.__init__`: call `getEID` and
raise `RuntimeError` when the result is falsy (`None` or the empty string). -/
def openEID (sample : String) (resps : List (String × String)) : Except String String :=
  match getEID sample resps with
  | none => .error ("The requested sample(" ++ sample ++ ") has no associated experiment!")
  | some eid =>
      if eid = "" then
        .error ("The requested sample(" ++ sample ++ ") has no associated experiment!")
      else .ok eid

/-- Claim C4 counterexample: with TWO search rows matching the sample name
exactly, session opening does not fail; it silently resolves to the first
matching experiment id.  The claimed "ambiguous match" error path does not
exist in the source. -/
theorem openEID_two_matches_ok :
    openEID "s" [("e1", "s"), ("e2", "s")] = .ok "e1" := rfl

/-- Claim C4 (amended): session opening fails when the search result contains
no row whose name equals the sample (first conjunct); when one or more rows
match exactly, it succeeds with the FIRST matching row's id (assuming that id
is non-empty), regardless of any further exact matches (second conjunct). -/
theorem openEID_match_spec (sample : String) :
    (∀ resps : List (String × String), (∀ r ∈ resps, r.2 ≠ sample) →
      openEID sample resps =
        .error ("The requested sample(" ++ sample ++ ") has no associated experiment!")) ∧
    (∀ (pre rest : List (String × String)) (eid : String),
      (∀ r ∈ pre, r.2 ≠ sample) → eid ≠ "" →
      openEID sample (pre ++ (eid, sample) :: rest) = .ok eid) := by
  constructor
  · intro resps h
    induction resps with
    | nil => rfl
    | cons r rest ih =>
        have hr : r.2 ≠ sample := h r (List.mem_cons_self r rest)
        have hrest : ∀ x ∈ rest, x.2 ≠ sample := fun x hx => h x (List.mem_cons_of_mem r hx)
        have ihr := ih hrest
        unfold openEID getEID
        simp only [if_neg hr]
        unfold openEID at ihr
        exact ihr
  · intro pre rest eid hpre heid
    induction pre with
    | nil => simp [openEID, getEID, heid]
    | cons p pre' ih =>
        have hp : p.2 ≠ sample := hpre p (List.mem_cons_self p pre')
        have hpre' : ∀ x ∈ pre', x.2 ≠ sample := fun x hx => hpre x (List.mem_cons_of_mem p hx)
        have ihr := ih hpre'
        unfold openEID getEID
        simp only [List.cons_append, if_neg hp]
        unfold openEID at ihr
        exact ihr

/-- Witness for `openEID_match_spec`: no match fails; a double exact match
succeeds with the first id. -/
theorem openEID_match_witness :
    openEID "s" [("e1", "x")] =
      .error ("The requested sample(" ++ "s" ++ ") has no associated experiment!") ∧
    openEID "s" [("e1", "s"), ("e2", "s")] = .ok "e1" := by
  refine ⟨(openEID_match_spec "s").1 [("e1", "x")] ?_, ?_⟩
  · intro r hr
    simp at hr
    simp [hr]
  · have h := (openEID_match_spec "s").2 [] [("e2", "s")] "e1" (by intro r hr; simp at hr) (by decide)
    simpa using h

/-! ### chroms -/

/-- The three possible results of `deepBlue.chroms`: the whole dict, one
length, or Python `None`. -/
inductive ChromsRet where
  | dict (d : List (String × Int))
  | len (n : Int)
  | noneRet
deriving DecidableEq

/-- `deepBlue.chroms(chrom=None)` from `deepBlue.py`.  The session's
`chromsDict` is modelled as its association list (name, length); Python dicts
have unique keys, so first-match `lookup` agrees with dict indexing. -/
def chroms (chromsDict : List (String × Int)) : Option String → ChromsRet
  | none => .dict chromsDict
  | some c =>
      match chromsDict.lookup c with
      | some v => .len v
      | none => .noneRet

/-- Claim C10: `chroms()` with no argument returns the full name-to-length
dict; `chroms(c)` returns the length when `c` is present and Python `None`
when absent.  The function is total — no input raises (in contrast to
`values`/`intervals`, which raise on an invalid chromosome). -/
theorem chroms_total_spec (d : List (String × Int)) (c : String) :
    chroms d none = .dict d ∧
    (∀ v : Int, d.lookup c = some v → chroms d (some c) = .len v) ∧
    (d.lookup c = none → chroms d (some c) = .noneRet) := by
  refine ⟨rfl, ?_, ?_⟩
  · intro v hv
    simp [chroms, hv]
  · intro hv
    simp [chroms, hv]

/-- Witness for `chroms_total_spec` on a one-chromosome session. -/
theorem chroms_total_witness :
    chroms [("chr1", 248956422)] none = .dict [("chr1", 248956422)] ∧
    chroms [("chr1", 248956422)] (some "chr1") = .len 248956422 ∧
    chroms [("chr1", 248956422)] (some "chr2") = .noneRet := by
  refine ⟨(chroms_total_spec [("chr1", 248956422)] "chr1").1, ?_, ?_⟩
  · exact (chroms_total_spec [("chr1", 248956422)] "chr1").2.1 248956422 (by decide)
  · exact (chroms_total_spec [("chr1", 248956422)] "chr2").2.2 (by decide)

/-! ### stats -/

/-- `np.isnan` on a start/end field: the coordinates are integers, and an
integer converted to float is never NaN. -/
def isNaNIntField (_ : Int) : Bool := false

/-- `np.isnan` on a value field (`none` models NaN). -/
def isNaNVal : Val → Bool
  | none => true
  | some _ => false

/-- One row of `np.isnan(ints)` fully NaN: the source applies `np.isnan` to the
WHOLE `(start, end, value)` tuple array, so the integer start and end fields
participate in the test. -/
def rowAllNaN (i : Itv) : Bool := isNaNIntField i.1 && isNaNIntField i.2.1 && isNaNVal i.2.2

/-- Float addition with NaN propagation. -/
def valAdd : Val → Val → Val
  | some a, some b => some (a + b)
  | _, _ => none

/-- Float multiplication by an integer weight with NaN propagation
(`nan * 0 = nan` in floating point, matched by `none.map`). -/
def valMulI (v : Val) (w : Int) : Val := v.map (fun q => q * (w : ℚ))

/-- Float division by a non-zero integer with NaN propagation. -/
def valDivI (v : Val) (w : Int) : Val := v.map (fun q => q / (w : ℚ))

/-- `deepBlue.stats` after the `intervals` call, applied to the fetched
interval list: return Python `None` (modelled `.ok none`) when the list is
empty or `np.all(np.isnan(ints))` holds; otherwise compute the length-weighted
average `np.average(vals, weights)` with the source's clipping
(`if start > 0 and s < start: s = start`, `if end > 0 and e > end: e = end`).
`np.average` raises `ZeroDivisionError` when the weights sum to zero.
The overall result `.ok (some v)` models Python's returned list `[rv]`. -/
def stats (ints : List Itv) (start fin : Int) : Except PyError (Option Val) :=
  if ints.isEmpty || ints.all rowAllNaN then .ok none
  else
    let weights := ints.map (fun x =>
      let s := x.1
      let e := x.2.1
      let s := if start > 0 ∧ s < start then start else s
      let e := if fin > 0 ∧ e > fin then fin else e
      e - s)
    let vals := ints.map (fun x => x.2.2)
    let wsum := weights.foldl (· + ·) 0
    if wsum = 0 then .error .zeroDivisionError
    else
      let num := (vals.zip weights).foldl (fun acc vw => valAdd acc (valMulI vw.1 vw.2)) (some 0)
      .ok (some (valDivI num wsum))

/-- Claim C6 counterexample: on a single interval whose value is NaN, `stats`
does not return Python `None`: `np.all(np.isnan(ints))` is `False` because the
integer start and end fields are never NaN, so the weighted average is computed
and the NaN value propagates into the returned mean `[nan]`
(modelled `.ok (some none)`). -/
theorem stats_allnan_not_none :
    stats [((0 : Int), (10 : Int), (none : Val))] 0 10 = .ok (some none) ∧
    (Except.ok (some none) : Except PyError (Option Val)) ≠ .ok none := by
  exact ⟨rfl, by simp⟩

/-- Claim C6 (amended): `stats` returns the no-data result (Python `None`) if
and only if the fetched interval list is empty.  A nonempty list every one of
whose values is NaN does NOT yield `None`, because the NaN test is applied to
the integer start/end fields as well. -/
theorem stats_none_iff_empty (ints : List Itv) (start fin : Int) :
    stats ints start fin = .ok none ↔ ints = [] := by
  cases ints with
  | nil => simp [stats]
  | cons i rest =>
      have hne : stats (i :: rest) start fin ≠ .ok none := by
        have hrow : rowAllNaN i = false := rfl
        unfold stats
        simp only [List.isEmpty_cons, List.all_cons, hrow, Bool.false_and, Bool.false_or,
          Bool.or_self]
        intro hcontra
        rw [if_neg (by simp)] at hcontra
        split at hcontra
        · exact Except.noConfusion hcontra
        · simp at hcontra
      exact ⟨fun h => absurd h hne, fun h => by cases h⟩

/-! ### values (sparse-to-dense rasterization) -/

/-- The source's clip of the window-relative start: `if s < 0: s = 0`. -/
def clipLow (x : Int) : Int := if x < 0 then 0 else x

/-- The source's clip of the window-relative end:
`if e >= end - start: e = end - start` (`W` is the window width). -/
def clipHigh (W x : Int) : Int := if x ≥ W then W else x

/-- One iteration of the overwrite loop in `deepBlue.values`: the dense array
is modelled by its indexing function `o : Int → Val`.  Per the source,
`s = interval[0] - start`, `e = s + interval[1] - interval[0]`, both are
clipped, and if `e > s` the slice `o[s:e]` is overwritten with the interval's
value. -/
def rasterStep (start W : Int) (o : Int → Val) (i : Itv) : Int → Val :=
  if clipHigh W (i.1 - start + i.2.1 - i.1) > clipLow (i.1 - start) then
    fun p =>
      if clipLow (i.1 - start) ≤ p ∧ p < clipHigh W (i.1 - start + i.2.1 - i.1) then i.2.2
      else o p
  else o

/-- The overwrite loop of `deepBlue.values` over the whole interval list,
starting from the all-NaN array `o[:] = np.nan`. -/
def rasterFun (ints : List Itv) (start W : Int) : Int → Val :=
  ints.foldl (rasterStep start W) (fun _ => none)

/-- `deepBlue.values(chrom, start, end)` after the `intervals` call: the dense
array of length `end - start`, materialized from the indexing function. -/
def pyValues (ints : List Itv) (start fin : Int) : Array Val :=
  ((List.range (fin - start).toNat).map
    (fun (p : Nat) => rasterFun ints start (fin - start) (p : Int))).toArray

/-- Spec-side coverage test (following the words of the specification): position
`p` of the window is covered by interval `i` after clipping `i` to the window
`[0, W)` in window-relative coordinates. -/
def coversB (start W : Int) (i : Itv) (p : Int) : Bool :=
  decide (max (i.1 - start) 0 ≤ p ∧ p < min (i.2.1 - start) W)

/-- Spec-side rasterizer, following the specification's words: every slot
defaults to the no-data sentinel; a covered slot holds the value of the LAST
interval in input order that covers it (last-write-wins); intervals whose
clipped span is empty cover nothing and are skipped. -/
def rasterizeSpec (ints : List Itv) (start fin : Int) (p : Nat) : Val :=
  match ints.reverse.find? (fun i => coversB start (fin - start) i (p : Int)) with
  | some i => i.2.2
  | none => none

/-- The coverage test agrees with the source's clipped bounds. -/
theorem coversB_iff (start W : Int) (i : Itv) (p : Int) :
    coversB start W i p = true ↔
      (clipLow (i.1 - start) ≤ p ∧ p < clipHigh W (i.1 - start + i.2.1 - i.1)) := by
  simp only [coversB, decide_eq_true_eq, clipLow, clipHigh, max_def, min_def]
  split_ifs <;> omega

/-- Pointwise reading of one overwrite step: position `p` gets the interval's
value exactly when the interval covers `p`, and keeps the previous content
otherwise (the `e > s` guard adds nothing pointwise: an empty clipped span
covers no position). -/
theorem rasterStep_point (start W : Int) (o : Int → Val) (i : Itv) (p : Int) :
    rasterStep start W o i p = if coversB start W i p = true then i.2.2 else o p := by
  unfold rasterStep
  by_cases hb : coversB start W i p = true
  · have hc := (coversB_iff start W i p).mp hb
    have hgt : clipHigh W (i.1 - start + i.2.1 - i.1) > clipLow (i.1 - start) := by omega
    rw [if_pos hgt, if_pos hc, if_pos hb]
  · rw [if_neg hb]
    by_cases hgt : clipHigh W (i.1 - start + i.2.1 - i.1) > clipLow (i.1 - start)
    · rw [if_pos hgt]
      have hc : ¬(clipLow (i.1 - start) ≤ p ∧ p < clipHigh W (i.1 - start + i.2.1 - i.1)) :=
        fun hcc => hb ((coversB_iff start W i p).mpr hcc)
      rw [if_neg hc]
    · rw [if_neg hgt]

/-- The left fold of overwrite steps reads back as "the last interval in input
order covering `p`", i.e. the first covering interval of the reversed list. -/
theorem rasterFun_eq_find (ints : List Itv) (start W : Int) (p : Int) :
    rasterFun ints start W p =
      (match ints.reverse.find? (fun i => coversB start W i p) with
       | some i => i.2.2
       | none => none) := by
  induction ints using List.reverseRecOn with
  | nil => rfl
  | append_singleton l i ih =>
      have hfold : rasterFun (l ++ [i]) start W = rasterStep start W (rasterFun l start W) i := by
        unfold rasterFun
        rw [List.foldl_append]
        rfl
      rw [hfold, rasterStep_point, List.reverse_append]
      simp only [List.reverse_cons, List.reverse_nil, List.nil_append, List.singleton_append]
      rw [List.find?_cons]
      by_cases hb : coversB start W i p = true
      · rw [if_pos hb, hb]
      · rw [if_neg hb]
        have hfalse : coversB start W i p = false := by
          simpa using hb
        rw [hfalse]
        exact ih

/-- Claim C7: for every interval list and window `[start, end)` with
`start < end`, `values` returns a dense array of length `end - start` that
coincides, slot by slot, with the spec-side rasterizer: uncovered positions
hold the no-data sentinel, covered positions hold the value of the last
interval in input order whose clipped span contains them, and intervals with
an empty clipped span are skipped. -/
theorem values_matches_rasterizeSpec (ints : List Itv) (start fin : Int) (h : start < fin) :
    (pyValues ints start fin).size = (fin - start).toNat ∧
    pyValues ints start fin =
      ((List.range (fin - start).toNat).map (rasterizeSpec ints start fin)).toArray := by
  constructor
  · unfold pyValues
    have hsz : ∀ (l : List Val), l.toArray.size = l.length := fun _ => rfl
    rw [hsz, List.length_map, List.length_range]
  · unfold pyValues
    have hl : (List.range (fin - start).toNat).map
        (fun (p : Nat) => rasterFun ints start (fin - start) (p : Int)) =
        (List.range (fin - start).toNat).map (rasterizeSpec ints start fin) := by
      apply List.map_congr_left
      intro p hp
      rw [rasterFun_eq_find]
      rfl
    rw [hl]

/-- Witness for `values_matches_rasterizeSpec`: the single interval
`(10, 20, 5.0)` over the window `[0, 100)`. -/
theorem values_matches_witness :
    (pyValues [((10 : Int), (20 : Int), (some (5 : ℚ)))] 0 100).size = ((100 : Int) - 0).toNat ∧
    pyValues [((10 : Int), (20 : Int), (some (5 : ℚ)))] 0 100 =
      ((List.range ((100 : Int) - 0).toNat).map
        (rasterizeSpec [((10 : Int), (20 : Int), (some (5 : ℚ)))] 0 100)).toArray :=
  values_matches_rasterizeSpec [((10 : Int), (20 : Int), (some (5 : ℚ)))] 0 100 (by decide)

/-! ### The select - retrieve - poll query protocol (`deepBlue.intervals`) -/

/-- Decimal digit-string value: `none` on the empty string or any non-digit
character (Python's `ValueError`). -/
def digitsVal (cs : List Char) : Option Nat :=
  if cs = [] then none
  else
    cs.foldl
      (fun acc c =>
        match acc with
        | none => none
        | some n => if c.isDigit then some (n * 10 + (c.toNat - 48)) else none)
      (some 0)

/-- Python `int(s)` on a payload field: optional minus sign and digits. -/
def pyInt (s : String) : Option Int :=
  match s.data with
  | '-' :: rest => (digitsVal rest).map (fun n => -(n : Int))
  | cs => (digitsVal cs).map (fun n => (n : Int))

/-- Python `str.split(sep)` with a one-character separator, on the character
list: splitting never yields the empty list (the empty string splits to
`[[]]`). -/
def splitOnChar (c : Char) : List Char → List (List Char)
  | [] => [[]]
  | x :: xs =>
      if x = c then [] :: splitOnChar c xs
      else
        match splitOnChar c xs with
        | [] => [[x]]
        | g :: gs => (x :: g) :: gs

/-- Python `s.split(sep)` for a one-character separator `sep`. -/
def pySplit (s : String) (c : Char) : List String :=
  (splitOnChar c s.data).map (fun l => String.mk l)

/-- Python `float(s)` on the payload fields, restricted to the decimal forms
the wire format carries: optional sign, digits, optional fraction; `"nan"`
parses to the NaN sentinel.  `none` models a `ValueError`. -/
def pyFloat (s : String) : Option Val :=
  if s = "nan" then some none
  else
    match
      (match s.data with
       | '-' :: rest => ((-1 : ℚ), rest)
       | cs => ((1 : ℚ), cs)) with
    | (sgn, t) =>
        match splitOnChar '.' t with
        | [a] => (digitsVal a).map (fun n => some (sgn * (n : ℚ)))
        | [a, b] =>
            match digitsVal a, digitsVal b with
            | some n, some f =>
                some (some (sgn * ((n : ℚ) + (f : ℚ) / ((10 : ℚ) ^ b.length))))
            | _, _ => none
        | _ => none

/-- The parsing loop of `deepBlue.intervals`: split the payload on newlines,
split each record on tabs, skip records whose first field is empty (this
covers the trailing blank record), and convert `START, END, VALUE`; a missing
field raises `IndexError`, a malformed number `ValueError`. -/
def parseLines : List String → Except PyError (List Itv)
  | [] => .ok []
  | line :: rest =>
      match pySplit line '\t' with
      | [] => .error .indexError
      | f0 :: fs =>
          if f0 = "" then parseLines rest
          else
            match fs with
            | f1 :: f2 :: _ =>
                match pyInt f0, pyInt f1, pyFloat f2 with
                | some a, some b, some v => (parseLines rest).map (fun o => (a, b, v) :: o)
                | _, _, _ => .error .valueError
            | _ => .error .indexError

/-- The polling loop `while request_status != "done" and request_status !=
"failed"`, fed with the successive `state` strings the server reports.  The
result is the first terminal state; `none` models a server that never reports
one, in which case the Python loop never exits. -/
def pollTerminal : List String → Option String
  | [] => none
  | s :: rest => if s = "done" ∨ s = "failed" then some s else pollTerminal rest

/-- Python `str(x)` for the optional id in an error message. -/
def pyOptStr : Option String → String
  | none => "None"
  | some s => s

/-- The server's responses consumed by one `deepBlue.intervals` call:
`(status, payload)` pairs for `select_experiments`, `get_regions` and
`get_request_data`, and the successive `state` fields of the `info` polls. -/
structure IntervalsServer where
  selectExperiments : String × Option String
  getRegions : String × String
  infoStates : List String
  getRequestData : String × String

/-- `deepBlue.intervals` after its argument validation, as a function of the
server's responses.  Mirrors the source line by line: non-"okay" statuses
raise (`RuntimeError`, modelled `remoteError` with the server payload), a
falsy query id raises, then the state is polled until `done` or `failed` —
and the terminal state is then DISCARDED: the code proceeds to
`get_request_data` unconditionally.  The outer `none` models the case in
which the polling loop never exits. -/
def intervalsProto (srv : IntervalsServer) : Option (Except PyError (List Itv)) :=
  if srv.selectExperiments.1 ≠ "okay" then
    some (.error (.remoteError (pyOptStr srv.selectExperiments.2)))
  else if srv.selectExperiments.2 = none ∨ srv.selectExperiments.2 = some "" then
    some (.error .noneID)
  else if srv.getRegions.1 ≠ "okay" then
    some (.error (.remoteError srv.getRegions.2))
  else
    match pollTerminal srv.infoStates with
    | none => none
    | some _tstate =>
        if srv.getRequestData.1 ≠ "okay" then
          some (.error (.remoteError srv.getRequestData.2))
        else some (parseLines (pySplit srv.getRequestData.2 '\n'))

/-- A server run on which the poll reaches `failed` but `get_request_data`
nevertheless answers with status `okay` and an empty payload. -/
def c8srv : IntervalsServer := ⟨("okay", some "q"), ("okay", "r"), ["failed"], ("okay", "")⟩

/-- Replace only the polled states of a server run. -/
def setInfoStates (srv : IntervalsServer) (i : List String) : IntervalsServer :=
  ⟨srv.selectExperiments, srv.getRegions, i, srv.getRequestData⟩

/-- Claim C8 counterexample: the polled state reaches `Failed`, yet the
operation does NOT surface an error — it returns data (here the empty interval
list), because the source never inspects the terminal state and only checks
the status of the subsequent `get_request_data` call. -/
theorem intervals_failed_returns_data :
    pollTerminal c8srv.infoStates = some "failed" ∧
    intervalsProto c8srv = some (.ok []) := ⟨rfl, rfl⟩

/-- A terminal state produced by the polling loop is `done` or `failed`. -/
theorem pollTerminal_terminal {l : List String} {t : String}
    (h : pollTerminal l = some t) : t = "done" ∨ t = "failed" := by
  induction l with
  | nil => exact absurd h (by simp [pollTerminal])
  | cons s rest ih =>
      unfold pollTerminal at h
      split_ifs at h with hs
      · injection h with h'
        subst h'
        exact hs
      · exact ih h

/-- Claim C8 (amended): after submitting the retrieval request the client
polls the state until it is `done` or `failed` (first conjunct); whenever the
loop exits the call completes locally (second conjunct); and the result is
entirely independent of WHICH terminal state was observed (third conjunct):
errors surface only from non-"okay" call statuses, so a `failed` request
yields a RemoteError only when `get_request_data` itself reports non-"okay",
and otherwise its payload is parsed and returned as data. -/
theorem intervals_poll_terminal_ignored (srv : IntervalsServer) (t : String)
    (infos2 : List String) (t2 : String)
    (h1 : pollTerminal srv.infoStates = some t) (h2 : pollTerminal infos2 = some t2) :
    (t = "done" ∨ t = "failed") ∧ (intervalsProto srv).isSome = true ∧
    intervalsProto (setInfoStates srv infos2) = intervalsProto srv := by
  refine ⟨pollTerminal_terminal h1, ?_, ?_⟩
  · unfold intervalsProto
    split_ifs <;> try rfl
    all_goals rw [h1]
    all_goals rfl
  · unfold intervalsProto setInfoStates
    dsimp only
    split_ifs <;> try rfl
    all_goals rw [h1, h2]

/-- Witness for `intervals_poll_terminal_ignored`: a run that polls through
`pending` to `done`, compared against a run whose (single) terminal state is
`failed`. -/
theorem intervals_poll_witness :
    ("done" = "done" ∨ "done" = "failed") ∧
    (intervalsProto ⟨("okay", some "q"), ("okay", "r"), ["pending", "done"], ("okay", "")⟩).isSome
      = true ∧
    intervalsProto (setInfoStates
        ⟨("okay", some "q"), ("okay", "r"), ["pending", "done"], ("okay", "")⟩ ["failed"]) =
      intervalsProto ⟨("okay", some "q"), ("okay", "r"), ["pending", "done"], ("okay", "")⟩ :=
  intervals_poll_terminal_ignored
    ⟨("okay", some "q"), ("okay", "r"), ["pending", "done"], ("okay", "")⟩
    "done" ["failed"] "failed" rfl rfl

/-! ### preload (the materialization pipeline) -/

/-- The state of the output bigWig writer across one `preload` run. -/
structure WriterLog where
  opened : Bool
  headerAdded : Bool
  entries : Nat
  closed : Bool
deriving DecidableEq

/-- The writer state before `preload` starts. -/
def initWriter : WriterLog := ⟨false, false, 0, false⟩

/-- Outcome of a stateful `preload` step: a value or a raised exception,
together with the writer state at that moment. -/
inductive PRes (α : Type) where
  | ok (a : α) (w : WriterLog)
  | err (e : PyError) (w : WriterLog)

/-- The `preload` effect monad: writer state threaded through `Except`-style
short-circuiting, with the writer state preserved on error (so the theorems
can inspect whether the writer was open when an exception escaped). -/
def PM (α : Type) : Type := WriterLog → PRes α

instance : Monad PM where
  pure a := fun w => .ok a w
  bind x f := fun w =>
    match x w with
    | .ok a w' => f a w'
    | .err e w' => .err e w'

/-- Raise a Python exception, preserving the writer state. -/
def throwP (e : PyError) : PM α := fun w => .err e w

/-- Perform a writer operation. -/
def modifyW (f : WriterLog → WriterLog) : PM Unit := fun w => .ok () (f w)

/-- `self.chromsTuple.items()` from `preload`: `chromsTuple` is a Python LIST
of pairs, and lists have no `.items()` method, so this raises
`AttributeError` unconditionally. -/
def listItems (chromsTuple : List (String × Int)) : PM (List (String × Int)) :=
  throwP .attributeError

/-- `self.chromsDict.key()` from `preload`: Python dicts expose `.keys()`,
not `.key()`, so this raises `AttributeError` unconditionally. -/
def dictKeySingular (chromsDict : List (String × Int)) : PM (List String) :=
  throwP .attributeError

/-- Python `regions2[k]`: dict indexing, raising `KeyError` when the
chromosome has no merged regions. -/
def pyDictGet (out : MergeOut) (k : Option String) : PM (List (Option Int × Option Int)) :=
  match out.lookup k with
  | some v => pure v
  | none => throwP .keyError

/-- Python `str` of an optional coordinate as interpolated by `format`. -/
def pyShow : Option Int → String
  | some n => toString n
  | none => "None"

/-- One line `"{} {} {} ".format(chrom, reg[0], reg[1])` of the region string
(note the trailing space, as in the source). -/
def fmtRegion (chrom : String) (r : Option Int × Option Int) : String :=
  chrom ++ " " ++ pyShow r.1 ++ " " ++ pyShow r.2 ++ " "

/-- The `for k, v in self.chromsTuple.items():` body of `preload`: per
chromosome, fetch `self.chromsDict.key()` (sic), translate the name through
the external `mungeChromosome` collaborator, skip chromosomes with a falsy
translation, and append the formatted region lines of `regions2[k]` plus a
newline to the accumulator. -/
def buildRegionsStr (chromsDict : List (String × Int))
    (munge : String → List String → Option String) (regions2 : MergeOut) :
    List (String × Int) → String → PM String
  | [], acc => pure acc
  | kv :: rest, acc => do
      let keys ← dictKeySingular chromsDict
      match munge kv.1 keys with
      | none => buildRegionsStr chromsDict munge regions2 rest acc
      | some chrom =>
          if chrom = "" then buildRegionsStr chromsDict munge regions2 rest acc
          else do
            let regs ← pyDictGet regions2 (some kv.1)
            let line := String.intercalate "\n" (regs.map (fmtRegion chrom))
            buildRegionsStr chromsDict munge regions2 rest (acc ++ line ++ "\n")

/-- The parse-and-write loop at the end of `preload`: fields are
`CHROM, START, END, VALUE`; records with an empty first field are skipped,
valid records become one `bw.addEntries` call each. -/
def addEntriesLoop : List String → PM Unit
  | [] => pure ()
  | line :: rest =>
      match pySplit line '\t' with
      | [] => throwP .indexError
      | f0 :: fs =>
          if f0 = "" then addEntriesLoop rest
          else
            match fs with
            | f1 :: f2 :: f3 :: _ =>
                match pyInt f1, pyInt f2, pyFloat f3 with
                | some _, some _, some _ => do
                    modifyW (fun w => ⟨w.opened, w.headerAdded, w.entries + 1, w.closed⟩)
                    addEntriesLoop rest
                | _, _, _ => throwP .valueError
            | _ => throwP .indexError

/-- The server's responses consumed by one `preload` call. -/
structure PreloadServer where
  inputRegions : String × String
  selectExperiments : String × Option String
  intersection : String × Option String
  getRegions : String × String
  infoStates : List String
  getRequestData : String × String

/-- `deepBlue.preload(regions)` from `deepBlue.py`, step by step.  `fname` is
the name handed out by the `tempfile` collaborator.  The two error raises
whose message `format` references an undefined variable (`resp` after
`input_regions`, `intersectionID` after `intersection`) are modelled as
`nameError`.  Note the body's fourth statement, `self.chromsTuple.items()`,
raises `AttributeError` on every run — everything after it is dead code, but
it is embedded anyway, mirroring the source order: input_regions, tempfile,
`pyBigWig.open`, `addHeader`, select_experiments, intersection, get_regions,
the poll loop, get_request_data, the addEntries loop, `bw.close()`. -/
def preloadRun (chromsTuple chromsDict : List (String × Int)) (genome : String)
    (munge : String → List String → Option String) (regions : List Region)
    (srv : PreloadServer) (fname : String) : PM String := do
  let regions2 := mergeRegions regions
  let kvs ← listItems chromsTuple
  let regionsStr ← buildRegionsStr chromsDict munge regions2 kvs ""
  if srv.inputRegions.1 ≠ "okay" then throwP .nameError
  let regionsID := (genome, regionsStr, srv.inputRegions.2)
  modifyW (fun w => ⟨true, w.headerAdded, w.entries, w.closed⟩)
  modifyW (fun w => ⟨w.opened, true, w.entries, w.closed⟩)
  if srv.selectExperiments.1 ≠ "okay" then
    throwP (.remoteError (pyOptStr srv.selectExperiments.2))
  if srv.selectExperiments.2 = none ∨ srv.selectExperiments.2 = some "" then throwP .noneID
  if srv.intersection.1 ≠ "okay" then throwP .nameError
  if srv.intersection.2 = none ∨ srv.intersection.2 = some "" then throwP .noneID
  if srv.getRegions.1 ≠ "okay" then throwP (.remoteError srv.getRegions.2)
  match pollTerminal srv.infoStates with
  | none => throwP .neverReturns
  | some _tstate => do
      if srv.getRequestData.1 ≠ "okay" then throwP (.remoteError srv.getRequestData.2)
      addEntriesLoop (pySplit srv.getRequestData.2 '\n')
      modifyW (fun w => ⟨w.opened, w.headerAdded, w.entries, true⟩)
      let _ := regionsID
      pure fname

/-- Claim C9: the spec says the output writer, once opened, is guaranteed
closed on the success path and on every failure path.  In the source, EVERY
run of `preload` raises `AttributeError` at `self.chromsTuple.items()`
(a list has no `.items()` method) before the writer is ever opened: the final
writer state equals the initial one — never opened, never closed — and
`preload` never reaches its success path.  (Even ignoring that crash, no
`try/finally` protects the writer: each later failure path raises with the
writer still open.) -/
theorem preload_always_attributeError (chromsTuple chromsDict : List (String × Int))
    (genome fname : String) (munge : String → List String → Option String)
    (regions : List Region) (srv : PreloadServer) :
    preloadRun chromsTuple chromsDict genome munge regions srv fname initWriter =
      PRes.err PyError.attributeError initWriter ∧
    initWriter.opened = false ∧ initWriter.closed = false :=
  ⟨rfl, rfl, rfl⟩
